import Mathlib

/-!
Shallow embedding of the `ghx_grid` library core: directions and delta
tables (`src/direction.rs`, `src/cartesian/coordinates.rs`), the Cartesian
grid index arithmetic and neighbor resolution (`src/cartesian/grid.rs`,
older revision `src/grid.rs`), the generic grid-backed data buffer with its
bulk fills, and the 2D flood-fill traversal (`src/cartesian/grid_data.rs`).

Machine integers are modelled as `Nat` (`u32`/`usize`) and `Int` (`i32`,
and the `i64` arithmetic used by `get_next_pos`); the claims proved below
all carry the fits-in-`u32` preconditions under which the Rust arithmetic
does not overflow, so no wrap-around modelling is needed on those domains.
Rust `Vec<D>` buffers are modelled as `List D`; out-of-range reads (a Rust
panic) are modelled by `List.getD` with the `Inhabited` default, and every
access exercised by a theorem is proved (or computed) in bounds.
The flood-fill `while` loop is given explicit fuel; running out of fuel
yields `none`, so `some` results exhibit termination.
-/

namespace GhxGrid

/-- `Direction` enum from `src/direction.rs` (discriminants 0..5). -/
inductive Direction where
  | XForward
  | YForward
  | XBackward
  | YBackward
  | ZForward
  | ZBackward
deriving DecidableEq, Fintype, Repr

/-- `direction as usize` (the `From<Direction> for usize` impl). -/
def Direction.toIndex : Direction → Nat
  | .XForward => 0
  | .YForward => 1
  | .XBackward => 2
  | .YBackward => 3
  | .ZForward => 4
  | .ZBackward => 5

/-- `Direction::opposite` from `src/direction.rs`. -/
def Direction.opposite : Direction → Direction
  | .XForward => .XBackward
  | .XBackward => .XForward
  | .YForward => .YBackward
  | .YBackward => .YForward
  | .ZForward => .ZBackward
  | .ZBackward => .ZForward

/-- `X_POS_AXIS` table from `src/direction.rs`. -/
def X_POS_AXIS : List Direction := [.YForward, .ZForward, .YBackward, .ZBackward]

/-- `X_NEG_AXIS` table from `src/direction.rs`. -/
def X_NEG_AXIS : List Direction := [.ZForward, .YForward, .ZBackward, .YBackward]

/-- `Y_POS_AXIS` table from `src/direction.rs`. -/
def Y_POS_AXIS : List Direction := [.ZForward, .XForward, .ZBackward, .XBackward]

/-- `Y_NEG_AXIS` table from `src/direction.rs`. -/
def Y_NEG_AXIS : List Direction := [.XForward, .ZForward, .XBackward, .ZBackward]

/-- `Z_POS_AXIS` table from `src/direction.rs`. -/
def Z_POS_AXIS : List Direction := [.XForward, .YForward, .XBackward, .YBackward]

/-- `Z_NEG_AXIS` table from `src/direction.rs`. -/
def Z_NEG_AXIS : List Direction := [.YForward, .XForward, .YBackward, .XBackward]

/-- `Direction::rotation_basis` from `src/direction.rs`. -/
def Direction.rotation_basis : Direction → List Direction
  | .XForward => X_POS_AXIS
  | .XBackward => X_NEG_AXIS
  | .YForward => Y_POS_AXIS
  | .YBackward => Y_NEG_AXIS
  | .ZForward => Z_POS_AXIS
  | .ZBackward => Z_NEG_AXIS

/-- `GridDelta` from `src/cartesian/coordinates.rs`: a signed 3-axis displacement. -/
structure GridDelta where
  dx : Int
  dy : Int
  dz : Int
deriving DecidableEq, Repr

/-- Component-wise negation of a delta (the claim compares table entries with it). -/
def GridDelta.negate (d : GridDelta) : GridDelta := ⟨-d.dx, -d.dy, -d.dz⟩

/-- Default delta used to model the (never-taken) out-of-range table lookup. -/
def dfltDelta : GridDelta := ⟨0, 0, 0⟩

/-- `CARTESIAN_2D_DIRECTIONS` from `src/cartesian/coordinates.rs`. -/
def CARTESIAN_2D_DIRECTIONS : List Direction :=
  [.XForward, .YForward, .XBackward, .YBackward]

/-- `CARTESIAN_2D_DELTAS` from `src/cartesian/coordinates.rs`, aligned by direction index. -/
def CARTESIAN_2D_DELTAS : List GridDelta :=
  [⟨1, 0, 0⟩, ⟨0, 1, 0⟩, ⟨-1, 0, 0⟩, ⟨0, -1, 0⟩]

/-- `CARTESIAN_3D_DIRECTIONS` from `src/cartesian/coordinates.rs`. -/
def CARTESIAN_3D_DIRECTIONS : List Direction :=
  [.XForward, .YForward, .XBackward, .YBackward, .ZForward, .ZBackward]

/-- `CARTESIAN_3D_DELTAS` from `src/cartesian/coordinates.rs`, aligned by direction index. -/
def CARTESIAN_3D_DELTAS : List GridDelta :=
  [⟨1, 0, 0⟩, ⟨0, 1, 0⟩, ⟨-1, 0, 0⟩, ⟨0, -1, 0⟩, ⟨0, 0, 1⟩, ⟨0, 0, -1⟩]

/-- The two provided coordinate systems (`Cartesian2D`, `Cartesian3D`). -/
inductive CoordSys where
  | cartesian2d
  | cartesian3d
deriving DecidableEq, Repr

/-- `CoordinateSystem::directions` for each system. -/
def CoordSys.directions : CoordSys → List Direction
  | .cartesian2d => CARTESIAN_2D_DIRECTIONS
  | .cartesian3d => CARTESIAN_3D_DIRECTIONS

/-- `CartesianCoordinates::deltas` for each system. -/
def CoordSys.deltas : CoordSys → List GridDelta
  | .cartesian2d => CARTESIAN_2D_DELTAS
  | .cartesian3d => CARTESIAN_3D_DELTAS

/-- `CartesianPosition` from `src/cartesian/coordinates.rs` (`u32` coordinates, as `Nat`). -/
structure CartesianPosition where
  x : Nat
  y : Nat
  z : Nat
deriving DecidableEq, Repr

/-- `CartesianPosition::get_delta_position`: per-axis `i64` sum of position and delta. -/
def CartesianPosition.get_delta_position (p : CartesianPosition) (delta : GridDelta) :
    Int × Int × Int :=
  ((p.x : Int) + delta.dx, (p.y : Int) + delta.dy, (p.z : Int) + delta.dz)

/-- `CartesianGrid<C>` from `src/cartesian/grid.rs`: sizes, per-axis looping flags,
coordinate system, and the `size_xy` cache field. -/
structure CartesianGrid where
  size_x : Nat
  size_y : Nat
  size_z : Nat
  looping_x : Bool
  looping_y : Bool
  looping_z : Bool
  coord_system : CoordSys
  size_xy : Nat
deriving DecidableEq, Repr

namespace CartesianGrid

/-- `CartesianGrid::new`: stores the fields and computes the `size_xy` cache. -/
def new (size_x size_y size_z : Nat) (looping_x looping_y looping_z : Bool)
    (coord_system : CoordSys) : CartesianGrid :=
  ⟨size_x, size_y, size_z, looping_x, looping_y, looping_z, coord_system, size_x * size_y⟩

/-- `CartesianGrid::<Cartesian2D>::new_cartesian_2d`. -/
def new_cartesian_2d (size_x size_y : Nat) (looping_x looping_y : Bool) : CartesianGrid :=
  new size_x size_y 1 looping_x looping_y false .cartesian2d

/-- `CartesianGrid::<Cartesian3D>::new_cartesian_3d`. -/
def new_cartesian_3d (size_x size_y size_z : Nat)
    (looping_x looping_y looping_z : Bool) : CartesianGrid :=
  new size_x size_y size_z looping_x looping_y looping_z .cartesian3d

/-- `Grid::total_size` for `CartesianGrid`: `size_xy * size_z`. -/
def total_size (g : CartesianGrid) : Nat := g.size_xy * g.size_z

/-- `CartesianGrid::index_from_coords`: `x + y*size_x + z*size_xy`. -/
def index_from_coords (g : CartesianGrid) (x y z : Nat) : Nat :=
  x + y * g.size_x + z * g.size_xy

/-- `CartesianGrid::index_from_pos`. -/
def index_from_pos (g : CartesianGrid) (p : CartesianPosition) : Nat :=
  g.index_from_coords p.x p.y p.z

/-- `CartesianGrid::pos_from_index`:
`x = i % size_x`, `y = (i / size_x) % size_y`, `z = i / size_xy`. -/
def pos_from_index (g : CartesianGrid) (grid_index : Nat) : CartesianPosition :=
  ⟨grid_index % g.size_x, (grid_index / g.size_x) % g.size_y, grid_index / g.size_xy⟩

end CartesianGrid

/-- One iteration of the per-axis loop body of `CartesianGrid::get_next_pos`:
a looping axis wraps by a single add/subtract of `size`; a non-looping axis
rejects a coordinate that is negative or `≥ size`. -/
def resolve_axis (looping : Bool) (pos : Int) (size : Nat) : Option Int :=
  match looping with
  | true =>
      let p1 := if pos < 0 then pos + (size : Int) else pos
      let p2 := if p1 ≥ (size : Int) then p1 - (size : Int) else p1
      some p2
  | false =>
      if pos < 0 ∨ pos ≥ (size : Int) then none else some pos

namespace CartesianGrid

/-- `CartesianGrid::get_next_pos`: adds the delta in signed arithmetic, resolves
the X, Y and Z axes in order (returning `none` at the first failing axis), then
converts back to unsigned coordinates. -/
def get_next_pos (g : CartesianGrid) (grid_position : CartesianPosition)
    (delta : GridDelta) : Option CartesianPosition :=
  let next_pos := grid_position.get_delta_position delta
  match resolve_axis g.looping_x next_pos.1 g.size_x with
  | none => none
  | some nx =>
    match resolve_axis g.looping_y next_pos.2.1 g.size_y with
    | none => none
    | some ny =>
      match resolve_axis g.looping_z next_pos.2.2 g.size_z with
      | none => none
      | some nz => some ⟨nx.toNat, ny.toNat, nz.toNat⟩

/-- `CartesianGrid::get_next_pos_in_direction`: looks the direction's delta up in
the coordinate system's table and moves one unit. -/
def get_next_pos_in_direction (g : CartesianGrid) (grid_position : CartesianPosition)
    (direction : Direction) : Option CartesianPosition :=
  g.get_next_pos grid_position (g.coord_system.deltas.getD direction.toIndex dfltDelta)

end CartesianGrid

/-! `GridData<C, D, CartesianGrid<C>>` (`src/grid.rs` + `src/cartesian/grid_data.rs`):
the buffer is a `List D`; the owning grid is passed explicitly. `get`/`set_raw` are
`List.getD`/`List.set` at the raw index. -/

/-- `GridData::get_from_pos` (`src/cartesian/grid_data.rs`): read at `index_from_pos`. -/
def get_from_pos {D : Type} [Inhabited D] (g : GhxGrid.CartesianGrid) (data : List D)
    (pos : CartesianPosition) : D :=
  data.getD (g.index_from_pos pos) default

/-- Write through `get_mut_from_pos` (`src/cartesian/grid_data.rs`): set at `index_from_pos`. -/
def set_from_pos {D : Type} (g : GhxGrid.CartesianGrid) (data : List D)
    (pos : CartesianPosition) (value : D) : List D :=
  data.set (g.index_from_pos pos) value

/-- Inner `for _y in 0..size_y` loop of `GridData::set_all_x`: each iteration does
`set_raw(index, value)` then `index += size_x`; the running index is threaded. -/
def set_all_x_loop_y {D : Type} (size_x : Nat) (value : D) :
    Nat → Nat × List D → Nat × List D
  | 0, st => st
  | Nat.succ n, (index, data) =>
      set_all_x_loop_y size_x value n (index + size_x, data.set index value)

/-- Outer `for _z in 0..size_z` loop of `GridData::set_all_x`: runs the Y loop
`size_z` times, the index continuing across iterations. -/
def set_all_x_loop_z {D : Type} (size_x : Nat) (value : D) (y_reps : Nat) :
    Nat → Nat × List D → Nat × List D
  | 0, st => st
  | Nat.succ n, st =>
      set_all_x_loop_z size_x value y_reps n (set_all_x_loop_y size_x value y_reps st)

/-- `GridData::set_all_x` (`src/cartesian/grid_data.rs`): starting at `index = x`,
sets every `size_x`-th element, `size_y` times per Z plane, over `size_z` planes. -/
def set_all_x {D : Type} (g : GhxGrid.CartesianGrid) (x : Nat) (value : D)
    (data : List D) : List D :=
  (set_all_x_loop_z g.size_x value g.size_y g.size_z (x, data)).2

/-- `GridData::<Cartesian2D>::explore_vertical` (`src/cartesian/grid_data.rs`): for
`YForward` then `YBackward`, if the neighbor exists and satisfies `condition`,
apply `action` and push the neighbor onto the back of the queue. -/
def explore_vertical {D : Type} [Inhabited D] (g : GhxGrid.CartesianGrid)
    (condition : D → Bool) (action : D → D)
    (st : List D × List CartesianPosition) (from_pos : CartesianPosition) :
    List D × List CartesianPosition :=
  [Direction.YForward, Direction.YBackward].foldl
    (fun st vertical_dir =>
      match g.get_next_pos_in_direction from_pos vertical_dir with
      | some vertical_node_pos =>
          let node_data := get_from_pos g st.1 vertical_node_pos
          if condition node_data then
            (set_from_pos g st.1 vertical_node_pos (action node_data),
             st.2 ++ [vertical_node_pos])
          else st
      | none => st)
    st

/-- The bounded horizontal run of `flood_fill` (`for _ in 0..size_x { ... }`): walk
in `horizontal_dir` while the next cell exists and satisfies `condition`, applying
`action` and probing vertical neighbors at each step. -/
def horizontal_run {D : Type} [Inhabited D] (g : GhxGrid.CartesianGrid)
    (condition : D → Bool) (action : D → D) (horizontal_dir : Direction) :
    Nat → CartesianPosition → List D × List CartesianPosition →
      List D × List CartesianPosition
  | 0, _, st => st
  | Nat.succ n, x_pos, st =>
      match g.get_next_pos_in_direction x_pos horizontal_dir with
      | some next_node_pos =>
          let node_data := get_from_pos g st.1 next_node_pos
          if condition node_data then
            let st1 := (set_from_pos g st.1 next_node_pos (action node_data), st.2)
            let st2 := explore_vertical g condition action st1 next_node_pos
            horizontal_run g condition action horizontal_dir n next_node_pos st2
          else st
      | none => st

/-- The `while let Some(pos) = queue.pop_front()` loop of `flood_fill`, with explicit
fuel: each iteration explores vertically from `pos` then runs the `XBackward` and
`XForward` horizontal runs (each capped at `size_x` steps). `none` means the fuel ran
out before the queue emptied. -/
def flood_fill_loop {D : Type} [Inhabited D] (g : GhxGrid.CartesianGrid)
    (condition : D → Bool) (action : D → D) :
    Nat → List D × List CartesianPosition → Option (List D × List CartesianPosition)
  | 0, _ => none
  | Nat.succ fuel, (data, queue) =>
      match queue with
      | [] => some (data, [])
      | pos :: rest =>
          let st1 := explore_vertical g condition action (data, rest) pos
          let st2 := horizontal_run g condition action .XBackward g.size_x pos st1
          let st3 := horizontal_run g condition action .XForward g.size_x pos st2
          flood_fill_loop g condition action fuel st3

/-- `GridData::<Cartesian2D>::flood_fill` (`src/cartesian/grid_data.rs`): clear (or
create) the queue; if `condition` fails at `from`, return immediately; otherwise
apply `action` at `from`, enqueue it, and run the work loop. The result is the final
buffer and queue contents, or `none` if `fuel` ran out. -/
def flood_fill {D : Type} [Inhabited D] (g : GhxGrid.CartesianGrid)
    (condition : D → Bool) (action : D → D) (from_pos : CartesianPosition)
    (pre_allocated_queue : Option (List CartesianPosition)) (data : List D)
    (fuel : Nat) : Option (List D × List CartesianPosition) :=
  let queue : List CartesianPosition :=
    match pre_allocated_queue with
    | some _ => []
    | none => []
  let initial_node := get_from_pos g data from_pos
  if condition initial_node then
    flood_fill_loop g condition action fuel
      (set_from_pos g data from_pos (action initial_node), queue ++ [from_pos])
  else
    some (data, queue)

/-- `GridDefinition<C>` from the older revision `src/grid.rs` (same fields as
`CartesianGrid`). -/
structure GridDefinition where
  size_x : Nat
  size_y : Nat
  size_z : Nat
  looping_x : Bool
  looping_y : Bool
  looping_z : Bool
  coord_system : CoordSys
  size_xy : Nat
deriving DecidableEq, Repr

namespace GridDefinition

/-- `GridDefinition::new` from `src/grid.rs`. -/
def new (size_x size_y size_z : Nat) (looping_x looping_y looping_z : Bool)
    (coord_system : CoordSys) : GridDefinition :=
  ⟨size_x, size_y, size_z, looping_x, looping_y, looping_z, coord_system, size_x * size_y⟩

/-- `GridDefinition::<Cartesian3D>::new_cartesian_3d` from `src/grid.rs`. -/
def new_cartesian_3d (size_x size_y size_z : Nat)
    (looping_x looping_y looping_z : Bool) : GridDefinition :=
  new size_x size_y size_z looping_x looping_y looping_z .cartesian3d

/-- `Grid::total_size` for `GridDefinition` (`src/grid.rs` lines 68-71):
`(self.size_x * self.size_y).try_into().unwrap()` — the `size_z` factor is absent. -/
def total_size (g : GridDefinition) : Nat := g.size_x * g.size_y

end GridDefinition

/-! ### Helper lemmas -/

/-- Once `flood_fill_loop` finishes within some fuel, any larger fuel gives the
same result. -/
theorem flood_fill_loop_mono {D : Type} [Inhabited D] (g : CartesianGrid)
    (condition : D → Bool) (action : D → D) :
    ∀ (n m : Nat) (st : List D × List CartesianPosition)
      (r : List D × List CartesianPosition), n ≤ m →
      flood_fill_loop g condition action n st = some r →
      flood_fill_loop g condition action m st = some r := by
  intro n
  induction n with
  | zero =>
      intro m st r _ h
      simp [flood_fill_loop] at h
  | succ n ih =>
      intro m st r hle h
      obtain ⟨data, queue⟩ := st
      obtain ⟨m', rfl⟩ : ∃ m', m = m' + 1 := ⟨m - 1, by omega⟩
      cases queue with
      | nil => simpa [flood_fill_loop] using h
      | cons pos rest =>
          simp only [flood_fill_loop] at h ⊢
          exact ih m' _ r (by omega) h

/-- Once `flood_fill` finishes within some fuel, any larger fuel gives the same
result. -/
theorem flood_fill_mono {D : Type} [Inhabited D] (g : CartesianGrid)
    (condition : D → Bool) (action : D → D) (from_pos : CartesianPosition)
    (pre_allocated_queue : Option (List CartesianPosition)) (data : List D)
    (n m : Nat) (r : List D × List CartesianPosition) (hle : n ≤ m)
    (h : flood_fill g condition action from_pos pre_allocated_queue data n = some r) :
    flood_fill g condition action from_pos pre_allocated_queue data m = some r := by
  unfold flood_fill at h ⊢
  cases pre_allocated_queue <;>
    by_cases hc : condition (get_from_pos g data from_pos) <;>
      simp only [hc, if_true, if_false, Bool.false_eq_true] at h ⊢ <;>
        first
          | exact flood_fill_loop_mono g condition action n m _ r hle h
          | exact h

/-- An axis coordinate already in `[0, size)` is returned unchanged, looping or not. -/
theorem resolve_axis_in_bounds (looping : Bool) (pos : Int) (size : Nat)
    (h0 : 0 ≤ pos) (h1 : pos < (size : Int)) :
    resolve_axis looping pos size = some pos := by
  cases looping
  · simp only [resolve_axis]
    rw [if_neg (by omega)]
  · simp only [resolve_axis]
    split_ifs <;> first | rfl | (exfalso; omega)

/-- A non-looping axis rejects an out-of-range coordinate. -/
theorem resolve_axis_nonlooping_out (pos : Int) (size : Nat)
    (h : pos < 0 ∨ (size : Int) ≤ pos) : resolve_axis false pos size = none := by
  simp only [resolve_axis]
  rw [if_pos (by omega)]

/-- `a % s = a + s` when `-s ≤ a < 0` (Euclidean remainder). -/
theorem emod_eq_add_self (pos : Int) (s : Nat) (h0 : -(s : Int) ≤ pos) (h1 : pos < 0) :
    pos % (s : Int) = pos + s := by
  have h4 := Int.add_mul_emod_self_left pos (s : Int) 1
  rw [mul_one] at h4
  rw [← h4]
  exact Int.emod_eq_of_lt (by omega) (by omega)

/-- `a % s = a - s` when `s ≤ a < 2s` (Euclidean remainder). -/
theorem emod_eq_sub_self (pos : Int) (s : Nat) (h0 : (s : Int) ≤ pos) (h1 : pos < 2 * s) :
    pos % (s : Int) = pos - s := by
  have h4 := Int.add_mul_emod_self_left pos (s : Int) (-1)
  rw [mul_neg_one, ← sub_eq_add_neg] at h4
  rw [← h4]
  exact Int.emod_eq_of_lt (by omega) (by omega)

/-- The single add/subtract wrap of a looping axis computes the Euclidean remainder,
provided the raw coordinate lies in `[-size, 2*size)` (guaranteed when the start
coordinate is in range and the delta magnitude is at most `size`). -/
theorem resolve_axis_looping_emod (pos : Int) (size : Nat) (_hs : 0 < size)
    (hlo : -(size : Int) ≤ pos) (hhi : pos < 2 * (size : Int)) :
    resolve_axis true pos size = some (pos % (size : Int)) := by
  simp only [resolve_axis]
  split_ifs with h1 h2 h3
  · exfalso; omega
  · rw [Option.some.injEq, emod_eq_add_self pos size hlo h1]
  · rw [Option.some.injEq, emod_eq_sub_self pos size (by omega) (by omega)]
  · rw [Option.some.injEq, Int.emod_eq_of_lt (by omega) (by omega)]

/-- The X/Y/Z resolutions of a successful `get_next_pos`, component by component. -/
theorem get_next_pos_some_components (g : CartesianGrid) (p : CartesianPosition)
    (delta : GridDelta) (q : CartesianPosition)
    (h : g.get_next_pos p delta = some q) :
    ∃ nx ny nz : Int,
      resolve_axis g.looping_x ((p.x : Int) + delta.dx) g.size_x = some nx ∧
      resolve_axis g.looping_y ((p.y : Int) + delta.dy) g.size_y = some ny ∧
      resolve_axis g.looping_z ((p.z : Int) + delta.dz) g.size_z = some nz ∧
      q = ⟨nx.toNat, ny.toNat, nz.toNat⟩ := by
  simp only [CartesianGrid.get_next_pos, CartesianPosition.get_delta_position] at h
  rcases hx : resolve_axis g.looping_x ((p.x : Int) + delta.dx) g.size_x with _ | nx <;>
    rw [hx] at h
  · exact absurd h (by simp)
  rcases hy : resolve_axis g.looping_y ((p.y : Int) + delta.dy) g.size_y with _ | ny <;>
    rw [hy] at h
  · exact absurd h (by simp)
  rcases hz : resolve_axis g.looping_z ((p.z : Int) + delta.dz) g.size_z with _ | nz <;>
    rw [hz] at h
  · exact absurd h (by simp)
  exact ⟨nx, ny, nz, rfl, rfl, rfl, by simpa using h.symm⟩

/-- `get_next_pos` computed from given per-axis resolutions. -/
theorem get_next_pos_of_resolutions (g : CartesianGrid) (p : CartesianPosition)
    (delta : GridDelta) (nx ny nz : Int)
    (hx : resolve_axis g.looping_x ((p.x : Int) + delta.dx) g.size_x = some nx)
    (hy : resolve_axis g.looping_y ((p.y : Int) + delta.dy) g.size_y = some ny)
    (hz : resolve_axis g.looping_z ((p.z : Int) + delta.dz) g.size_z = some nz) :
    g.get_next_pos p delta = some ⟨nx.toNat, ny.toNat, nz.toNat⟩ := by
  simp only [CartesianGrid.get_next_pos, CartesianPosition.get_delta_position]
  rw [hx, hy, hz]

/-- `get_next_pos` is `none` when the X axis resolution fails. -/
theorem get_next_pos_none_of_x (g : CartesianGrid) (p : CartesianPosition)
    (delta : GridDelta)
    (hx : resolve_axis g.looping_x ((p.x : Int) + delta.dx) g.size_x = none) :
    g.get_next_pos p delta = none := by
  simp only [CartesianGrid.get_next_pos, CartesianPosition.get_delta_position]
  rw [hx]

/-- `get_next_pos` is `none` when the Y axis resolution fails. -/
theorem get_next_pos_none_of_y (g : CartesianGrid) (p : CartesianPosition)
    (delta : GridDelta)
    (hy : resolve_axis g.looping_y ((p.y : Int) + delta.dy) g.size_y = none) :
    g.get_next_pos p delta = none := by
  simp only [CartesianGrid.get_next_pos, CartesianPosition.get_delta_position]
  rcases hx : resolve_axis g.looping_x ((p.x : Int) + delta.dx) g.size_x with _ | nx
  · rfl
  · simp [hy]

/-- `get_next_pos` is `none` when the Z axis resolution fails. -/
theorem get_next_pos_none_of_z (g : CartesianGrid) (p : CartesianPosition)
    (delta : GridDelta)
    (hz : resolve_axis g.looping_z ((p.z : Int) + delta.dz) g.size_z = none) :
    g.get_next_pos p delta = none := by
  simp only [CartesianGrid.get_next_pos, CartesianPosition.get_delta_position]
  rcases hx : resolve_axis g.looping_x ((p.x : Int) + delta.dx) g.size_x with _ | nx
  · rfl
  rcases hy : resolve_axis g.looping_y ((p.y : Int) + delta.dy) g.size_y with _ | ny
  · rfl
  · simp [hz]

/-- The delta stored for `XBackward` in both coordinate systems. -/
theorem deltas_xbackward (cs : CoordSys) :
    cs.deltas.getD Direction.XBackward.toIndex dfltDelta = ⟨-1, 0, 0⟩ := by
  cases cs <;> rfl

/-- The delta stored for `XForward` in both coordinate systems. -/
theorem deltas_xforward (cs : CoordSys) :
    cs.deltas.getD Direction.XForward.toIndex dfltDelta = ⟨1, 0, 0⟩ := by
  cases cs <;> rfl

/-- Striding existentials shift across one loop iteration. -/
theorem exists_stride_succ (n i sx j : Nat) :
    (∃ k, k < n + 1 ∧ j = i + k * sx) ↔
      j = i ∨ ∃ k, k < n ∧ j = (i + sx) + k * sx := by
  constructor
  · rintro ⟨k, hk, rfl⟩
    cases k with
    | zero => exact Or.inl (by ring)
    | succ k => exact Or.inr ⟨k, by omega, by ring⟩
  · rintro (rfl | ⟨k, hk, rfl⟩)
    · exact ⟨0, by omega, by ring⟩
    · exact ⟨k + 1, by omega, by ring⟩

/-- Element characterization of the inner `set_all_x` loop: position `j` holds `v`
exactly when `j` is one of the `n` strided indices `i, i+sx, …` (and in bounds);
every other position is untouched. -/
theorem set_all_x_loop_y_getElem {D : Type} (sx : Nat) (v : D) :
    ∀ (n i : Nat) (data : List D) (j : Nat),
      ((set_all_x_loop_y sx v n (i, data)).2)[j]? =
        if ∃ k, k < n ∧ j = i + k * sx then
          (if j < data.length then some v else none)
        else data[j]? := by
  intro n
  induction n with
  | zero =>
      intro i data j
      rw [set_all_x_loop_y, if_neg]
      rintro ⟨k, hk, _⟩
      omega
  | succ n ih =>
      intro i data j
      rw [set_all_x_loop_y, ih]
      simp only [exists_stride_succ, List.length_set, List.getElem?_set]
      by_cases hA : ∃ k, k < n ∧ j = i + sx + k * sx
      · rw [if_pos hA, if_pos (Or.inr hA)]
      · by_cases hij : i = j
        · subst hij
          rw [if_neg hA, if_pos rfl, if_pos (Or.inl rfl)]
        · have hB : ¬(j = i ∨ ∃ k, k < n ∧ j = i + sx + k * sx) := by
            rintro (h | h)
            · exact hij h.symm
            · exact hA h
          rw [if_neg hA, if_neg hij, if_neg hB]

/-- Running the inner loop `a + b` times is running it `a` then `b` times. -/
theorem set_all_x_loop_y_add {D : Type} (sx : Nat) (v : D) :
    ∀ (a b : Nat) (st : Nat × List D),
      set_all_x_loop_y sx v (a + b) st =
        set_all_x_loop_y sx v b (set_all_x_loop_y sx v a st) := by
  intro a
  induction a with
  | zero => intro b st; rw [Nat.zero_add]; rfl
  | succ a ih =>
      intro b st
      obtain ⟨i, data⟩ := st
      rw [Nat.succ_add, set_all_x_loop_y, ih]
      rfl

/-- The two nested `set_all_x` loops collapse to a single strided loop of
`size_y * size_z` iterations (the index continues seamlessly across Z planes). -/
theorem set_all_x_loop_z_collapse {D : Type} (sx : Nat) (v : D) (y_reps : Nat) :
    ∀ (z_reps : Nat) (st : Nat × List D),
      set_all_x_loop_z sx v y_reps z_reps st =
        set_all_x_loop_y sx v (y_reps * z_reps) st := by
  intro n
  induction n with
  | zero => intro st; rw [Nat.mul_zero]; rfl
  | succ n ih =>
      intro st
      rw [set_all_x_loop_z, ih, ← set_all_x_loop_y_add]
      congr 1
      ring

/-- Element characterization of `set_all_x`. -/
theorem set_all_x_getElem {D : Type} (g : CartesianGrid) (x : Nat) (v : D)
    (data : List D) (j : Nat) :
    (set_all_x g x v data)[j]? =
      if ∃ k, k < g.size_y * g.size_z ∧ j = x + k * g.size_x then
        (if j < data.length then some v else none)
      else data[j]? := by
  unfold set_all_x
  rw [set_all_x_loop_z_collapse, set_all_x_loop_y_getElem]

/-- A valid coordinate triple encodes below the total element count. -/
theorem index_from_coords_lt (sx sy sz x y z : Nat)
    (hx : x < sx) (hy : y < sy) (hz : z < sz) :
    x + y * sx + z * (sx * sy) < sx * sy * sz := by
  have h1 : x + y * sx < sx * sy := by
    calc x + y * sx < sx + y * sx := by omega
      _ = (y + 1) * sx := by ring
      _ ≤ sy * sx := Nat.mul_le_mul_right _ (by omega)
      _ = sx * sy := by ring
  calc x + y * sx + z * (sx * sy) < sx * sy + z * (sx * sy) := by omega
    _ = (z + 1) * (sx * sy) := by ring
    _ ≤ sz * (sx * sy) := Nat.mul_le_mul_right _ (by omega)
    _ = sx * sy * sz := by ring

/-! ### Claim theorems -/

/-- C2. Index/position round trip: on any constructed grid with positive sizes
whose element count fits in `u32`, `pos_from_index ∘ index_from_coords` is the
identity on valid coordinates, and `index_from_pos ∘ pos_from_index` is the
identity on `[0, total_size)`. -/
theorem index_pos_round_trip :
    ∀ (sx sy sz : Nat) (lx ly lz : Bool) (cs : CoordSys),
      0 < sx → 0 < sy → 0 < sz → sx * sy * sz < 2 ^ 32 →
      (∀ x y z : Nat, x < sx → y < sy → z < sz →
        (CartesianGrid.new sx sy sz lx ly lz cs).pos_from_index
            ((CartesianGrid.new sx sy sz lx ly lz cs).index_from_coords x y z) = ⟨x, y, z⟩)
      ∧ (∀ index : Nat, index < (CartesianGrid.new sx sy sz lx ly lz cs).total_size →
        (CartesianGrid.new sx sy sz lx ly lz cs).index_from_pos
            ((CartesianGrid.new sx sy sz lx ly lz cs).pos_from_index index) = index) := by
  intro sx sy sz lx ly lz cs hsx hsy hsz _hfit
  constructor
  · intro x y z hx hy hz
    have e : x + y * sx + z * (sx * sy) = x + sx * (y + sy * z) := by ring
    show (⟨(x + y * sx + z * (sx * sy)) % sx,
           ((x + y * sx + z * (sx * sy)) / sx) % sy,
           (x + y * sx + z * (sx * sy)) / (sx * sy)⟩ : CartesianPosition) = ⟨x, y, z⟩
    simp only [CartesianPosition.mk.injEq]
    refine ⟨?_, ?_, ?_⟩
    · rw [e, Nat.add_mul_mod_self_left, Nat.mod_eq_of_lt hx]
    · rw [e, Nat.add_mul_div_left _ _ hsx, Nat.div_eq_of_lt hx, zero_add,
        Nat.add_mul_mod_self_left, Nat.mod_eq_of_lt hy]
    · have e2 : x + y * sx + z * (sx * sy) = (x + y * sx) + (sx * sy) * z := by ring
      have hlt : x + y * sx < sx * sy := by
        calc x + y * sx < sx + y * sx := by omega
          _ = (y + 1) * sx := by ring
          _ ≤ sy * sx := Nat.mul_le_mul_right _ (by omega)
          _ = sx * sy := by ring
      rw [e2, Nat.add_mul_div_left _ _ (Nat.mul_pos hsx hsy), Nat.div_eq_of_lt hlt, zero_add]
  · intro index _hidx
    show index % sx + (index / sx % sy) * sx + index / (sx * sy) * (sx * sy) = index
    rw [← Nat.div_div_eq_div_mul]
    have h1 : index / sx % sy + sy * (index / sx / sy) = index / sx := Nat.mod_add_div _ _
    have h2 : index % sx + sx * (index / sx) = index := Nat.mod_add_div _ _
    calc index % sx + index / sx % sy * sx + index / sx / sy * (sx * sy)
        = index % sx + sx * (index / sx % sy + sy * (index / sx / sy)) := by ring
      _ = index % sx + sx * (index / sx) := by rw [h1]
      _ = index := h2

/-- C2 witness: both round trips on a 3×4×5 grid (coordinates `(2,3,4)`, index 59). -/
theorem index_pos_round_trip_witness :
    (CartesianGrid.new 3 4 5 true false true .cartesian3d).pos_from_index
        ((CartesianGrid.new 3 4 5 true false true .cartesian3d).index_from_coords 2 3 4)
      = ⟨2, 3, 4⟩ ∧
    (CartesianGrid.new 3 4 5 true false true .cartesian3d).index_from_pos
        ((CartesianGrid.new 3 4 5 true false true .cartesian3d).pos_from_index 59) = 59 :=
  ⟨(index_pos_round_trip 3 4 5 true false true .cartesian3d (by decide) (by decide)
      (by decide) (by decide)).1 2 3 4 (by decide) (by decide) (by decide),
   (index_pos_round_trip 3 4 5 true false true .cartesian3d (by decide) (by decide)
      (by decide) (by decide)).2 59 (by decide)⟩

/-- C3. `total_size` divergence between the two revisions: the current
`CartesianGrid::total_size` returns `size_x * size_y * size_z` for every
constructed grid, but the older `GridDefinition::total_size` (`src/grid.rs`)
returns `size_x * size_y`, dropping the `size_z` factor: on a 2×3×2 3D grid it
returns 6 instead of the 12 elements the grid addresses. -/
theorem total_size_divergence :
    (∀ (sx sy sz : Nat) (lx ly lz : Bool) (cs : CoordSys),
      (CartesianGrid.new sx sy sz lx ly lz cs).total_size = sx * sy * sz)
    ∧ GridDefinition.total_size (GridDefinition.new_cartesian_3d 2 3 2 false false false) = 6
    ∧ (CartesianGrid.new_cartesian_3d 2 3 2 false false false).total_size = 12 := by
  refine ⟨fun sx sy sz lx ly lz cs => rfl, rfl, rfl⟩

/-- C4. Looping wraparound: with `looping_x = true`, moving X- from `x = 0` lands
on `x = size_x - 1` and moving X+ from `x = size_x - 1` lands on `x = 0` (for any
in-bounds `y`, `z` and either coordinate system); in general the looping-axis
resolution of `get_next_pos` computes `(p + d) mod s` whenever `p < s` and
`|d| ≤ s`, a single add or subtract of `s` sufficing. -/
theorem looping_wraparound :
    (∀ (sx sy sz : Nat) (ly lz : Bool) (cs : CoordSys), 0 < sx →
      ∀ y z : Nat, y < sy → z < sz →
        (CartesianGrid.new sx sy sz true ly lz cs).get_next_pos_in_direction
            ⟨0, y, z⟩ .XBackward = some ⟨sx - 1, y, z⟩ ∧
        (CartesianGrid.new sx sy sz true ly lz cs).get_next_pos_in_direction
            ⟨sx - 1, y, z⟩ .XForward = some ⟨0, y, z⟩)
    ∧ (∀ s : Nat, 0 < s → ∀ (p : Nat) (d : Int), p < s → d.natAbs ≤ s →
        resolve_axis true ((p : Int) + d) s = some (((p : Int) + d) % (s : Int))) := by
  constructor
  · intro sx sy sz ly lz cs hsx y z hy hz
    have hx1 : resolve_axis true (((0 : Nat) : Int) + (-1)) sx = some ((sx : Int) - 1) := by
      simp only [resolve_axis]
      split_ifs <;> first | (exfalso; omega) | (simp only [Option.some.injEq]; omega)
    have hx2 : resolve_axis true (((sx - 1 : Nat) : Int) + 1) sx = some 0 := by
      simp only [resolve_axis]
      split_ifs <;> first | (exfalso; omega) | (simp only [Option.some.injEq]; omega)
    have hy' : ∀ b : Bool, resolve_axis b ((y : Int) + 0) sy = some ((y : Int) + 0) :=
      fun b => resolve_axis_in_bounds b _ _ (by omega) (by omega)
    have hz' : ∀ b : Bool, resolve_axis b ((z : Int) + 0) sz = some ((z : Int) + 0) :=
      fun b => resolve_axis_in_bounds b _ _ (by omega) (by omega)
    cases cs <;> constructor <;>
      first
        | exact Eq.trans
            (get_next_pos_of_resolutions _ _ _ ((sx : Int) - 1) ((y : Int) + 0) ((z : Int) + 0)
              hx1 (hy' _) (hz' _))
            (by simp only [Option.some.injEq, CartesianPosition.mk.injEq]
                refine ⟨?_, ?_, ?_⟩ <;> omega)
        | exact Eq.trans
            (get_next_pos_of_resolutions _ _ _ 0 ((y : Int) + 0) ((z : Int) + 0)
              hx2 (hy' _) (hz' _))
            (by simp only [Option.some.injEq, CartesianPosition.mk.injEq]
                refine ⟨?_, ?_, ?_⟩ <;> omega)
  · intro s hs p d hp hd
    rw [resolve_axis_looping_emod _ _ hs (by omega) (by omega)]

/-- C4 witness: a 4-wide looping grid wraps `0 → 3` (X-) and `3 → 0` (X+), and the
general looping resolution at `p = 2`, `d = 3`, `s = 4`. -/
theorem looping_wraparound_witness :
    ((CartesianGrid.new 4 3 2 true false false .cartesian3d).get_next_pos_in_direction
        ⟨0, 1, 1⟩ .XBackward = some ⟨3, 1, 1⟩ ∧
     (CartesianGrid.new 4 3 2 true false false .cartesian3d).get_next_pos_in_direction
        ⟨3, 1, 1⟩ .XForward = some ⟨0, 1, 1⟩)
    ∧ resolve_axis true (((2 : Nat) : Int) + 3) 4 = some ((((2 : Nat) : Int) + 3) % (4 : Int)) :=
  ⟨looping_wraparound.1 4 3 2 false false .cartesian3d (by decide) 1 1 (by decide) (by decide),
   looping_wraparound.2 4 (by decide) 2 3 (by decide) (by decide)⟩

/-- C5. Non-looping boundary: with `looping_x = false`, X- from `x = 0` and X+
from `x = size_x - 1` both yield no destination; and in general a single
non-looping axis whose raw coordinate falls outside `[0, size)` makes the whole
`get_next_pos` return `none`, whatever the other axes do. -/
theorem non_looping_boundary :
    (∀ (sx sy sz : Nat) (ly lz : Bool) (cs : CoordSys), 0 < sx →
      ∀ y z : Nat,
        (CartesianGrid.new sx sy sz false ly lz cs).get_next_pos_in_direction
            ⟨0, y, z⟩ .XBackward = none ∧
        (CartesianGrid.new sx sy sz false ly lz cs).get_next_pos_in_direction
            ⟨sx - 1, y, z⟩ .XForward = none)
    ∧ (∀ (sx sy sz : Nat) (lx ly lz : Bool) (cs : CoordSys)
        (p : CartesianPosition) (delta : GridDelta),
        ((lx = false ∧ (((p.x : Int) + delta.dx) < 0 ∨ (sx : Int) ≤ (p.x : Int) + delta.dx)) ∨
         (ly = false ∧ (((p.y : Int) + delta.dy) < 0 ∨ (sy : Int) ≤ (p.y : Int) + delta.dy)) ∨
         (lz = false ∧ (((p.z : Int) + delta.dz) < 0 ∨ (sz : Int) ≤ (p.z : Int) + delta.dz))) →
        (CartesianGrid.new sx sy sz lx ly lz cs).get_next_pos p delta = none) := by
  constructor
  · intro sx sy sz ly lz cs hsx y z
    cases cs <;> refine ⟨?_, ?_⟩ <;>
      first
        | exact get_next_pos_none_of_x _ _ _
            (resolve_axis_nonlooping_out (((0 : Nat) : Int) + (-1)) sx (by omega))
        | exact get_next_pos_none_of_x _ _ _
            (resolve_axis_nonlooping_out (((sx - 1 : Nat) : Int) + 1) sx (by omega))
  · intro sx sy sz lx ly lz cs p delta h
    rcases h with ⟨hlx, hout⟩ | ⟨hly, hout⟩ | ⟨hlz, hout⟩
    · subst hlx
      exact get_next_pos_none_of_x _ _ _
        (resolve_axis_nonlooping_out ((p.x : Int) + delta.dx) sx (by omega))
    · subst hly
      exact get_next_pos_none_of_y _ _ _
        (resolve_axis_nonlooping_out ((p.y : Int) + delta.dy) sy (by omega))
    · subst hlz
      exact get_next_pos_none_of_z _ _ _
        (resolve_axis_nonlooping_out ((p.z : Int) + delta.dz) sz (by omega))

/-- C5 witness: a 4-wide non-looping grid blocks X- from `x = 0` and X+ from
`x = 3`, and a Y-overflowing delta on an otherwise-looping 3D grid yields `none`. -/
theorem non_looping_boundary_witness :
    ((CartesianGrid.new 4 3 1 false true false .cartesian2d).get_next_pos_in_direction
        ⟨0, 2, 0⟩ .XBackward = none ∧
     (CartesianGrid.new 4 3 1 false true false .cartesian2d).get_next_pos_in_direction
        ⟨3, 2, 0⟩ .XForward = none)
    ∧ (CartesianGrid.new 4 3 2 true false true .cartesian3d).get_next_pos
        ⟨1, 2, 1⟩ ⟨0, 1, 0⟩ = none :=
  ⟨non_looping_boundary.1 4 3 1 true false .cartesian2d (by decide) 2 0,
   non_looping_boundary.2 4 3 2 true false true .cartesian3d ⟨1, 2, 1⟩ ⟨0, 1, 0⟩
     (Or.inr (Or.inl ⟨rfl, by decide⟩))⟩

/-- C9. 2D z-plane invariant: `new_cartesian_2d` grids have `size_z = 1` and
`looping_z = false`; every valid index decodes to a position with `z = 0`; and
`get_next_pos` with any `Cartesian2D` delta (all of which have `dz = 0`) from a
position with `z = 0` returns either `none` or a position with `z = 0`. -/
theorem cartesian2d_z_plane_invariant :
    ∀ (sx sy : Nat) (lx ly : Bool),
      (CartesianGrid.new_cartesian_2d sx sy lx ly).size_z = 1 ∧
      (CartesianGrid.new_cartesian_2d sx sy lx ly).looping_z = false ∧
      (∀ index : Nat, index < (CartesianGrid.new_cartesian_2d sx sy lx ly).total_size →
        ((CartesianGrid.new_cartesian_2d sx sy lx ly).pos_from_index index).z = 0) ∧
      (∀ delta ∈ CARTESIAN_2D_DELTAS, ∀ p : CartesianPosition, p.z = 0 →
        (CartesianGrid.new_cartesian_2d sx sy lx ly).get_next_pos p delta = none ∨
        ∃ q : CartesianPosition,
          (CartesianGrid.new_cartesian_2d sx sy lx ly).get_next_pos p delta = some q ∧
          q.z = 0) := by
  intro sx sy lx ly
  refine ⟨rfl, rfl, ?_, ?_⟩
  · intro index hidx
    have hlt : index < sx * sy := by
      have h2 : (CartesianGrid.new_cartesian_2d sx sy lx ly).total_size = sx * sy * 1 := rfl
      rw [h2] at hidx
      omega
    show index / (sx * sy) = 0
    exact Nat.div_eq_of_lt hlt
  · intro delta hd p hpz
    rcases hres : (CartesianGrid.new_cartesian_2d sx sy lx ly).get_next_pos p delta
      with _ | q
    · exact Or.inl rfl
    refine Or.inr ⟨q, rfl, ?_⟩
    obtain ⟨nx, ny, nz, _hx, _hy, hz, hq⟩ := get_next_pos_some_components _ _ _ _ hres
    have hdz : delta.dz = 0 := by
      fin_cases hd <;> rfl
    rw [hpz, hdz] at hz
    have hcomp : resolve_axis false (((0 : Nat) : Int) + 0) 1 = some (((0 : Nat) : Int) + 0) :=
      resolve_axis_in_bounds false _ _ (by omega) (by omega)
    have hnz : ((0 : Nat) : Int) + 0 = nz := Option.some.inj (hcomp.symm.trans hz)
    rw [hq]
    show nz.toNat = 0
    omega

/-- C9 witness: instantiated on a 5×4 looping-X 2D grid, index 17 and the
`YForward` delta from `(2,3,0)` (which wraps to `(2,0,0)` when Y loops). -/
theorem cartesian2d_z_plane_invariant_witness :
    (CartesianGrid.new_cartesian_2d 5 4 true true).size_z = 1 ∧
    ((CartesianGrid.new_cartesian_2d 5 4 true true).pos_from_index 17).z = 0 ∧
    ((CartesianGrid.new_cartesian_2d 5 4 true true).get_next_pos ⟨2, 3, 0⟩ ⟨0, 1, 0⟩ = none ∨
      ∃ q : CartesianPosition,
        (CartesianGrid.new_cartesian_2d 5 4 true true).get_next_pos ⟨2, 3, 0⟩ ⟨0, 1, 0⟩
          = some q ∧ q.z = 0) :=
  ⟨(cartesian2d_z_plane_invariant 5 4 true true).1,
   (cartesian2d_z_plane_invariant 5 4 true true).2.2.1 17 (by decide),
   (cartesian2d_z_plane_invariant 5 4 true true).2.2.2 ⟨0, 1, 0⟩ (by decide) ⟨2, 3, 0⟩ rfl⟩

/-- C6. Bulk-fill equivalence and frame: after `set_all_x x0 v` on a buffer of
exactly `total_size` elements, the element at `index_from_coords x y z` is `v`
whenever `x = x0` and keeps its previous value whenever `x ≠ x0`, for every valid
position. -/
theorem set_all_x_frame :
    ∀ (D : Type) (sx sy sz : Nat) (lx ly lz : Bool) (cs : CoordSys)
      (data : List D) (x0 : Nat) (v dflt : D),
      data.length = (CartesianGrid.new sx sy sz lx ly lz cs).total_size →
      x0 < sx →
      ∀ x y z : Nat, x < sx → y < sy → z < sz →
        (set_all_x (CartesianGrid.new sx sy sz lx ly lz cs) x0 v data).getD
            ((CartesianGrid.new sx sy sz lx ly lz cs).index_from_coords x y z) dflt =
          if x = x0 then v
          else data.getD
            ((CartesianGrid.new sx sy sz lx ly lz cs).index_from_coords x y z) dflt := by
  intro D sx sy sz lx ly lz cs data x0 v dflt hlen hx0 x y z hx hy hz
  have hlen' : data.length = sx * sy * sz := hlen
  have hidx : (CartesianGrid.new sx sy sz lx ly lz cs).index_from_coords x y z
      = x + y * sx + z * (sx * sy) := rfl
  have hidx_lt : x + y * sx + z * (sx * sy) < sx * sy * sz :=
    index_from_coords_lt sx sy sz x y z hx hy hz
  rw [List.getD_eq_getElem?_getD, List.getD_eq_getElem?_getD, set_all_x_getElem, hidx]
  by_cases hxx : x = x0
  · subst hxx
    have hcond : ∃ k, k < (CartesianGrid.new sx sy sz lx ly lz cs).size_y *
        (CartesianGrid.new sx sy sz lx ly lz cs).size_z ∧
        x + y * sx + z * (sx * sy) =
          x + k * (CartesianGrid.new sx sy sz lx ly lz cs).size_x := by
      refine ⟨y + z * sy, ?_, ?_⟩
      · show y + z * sy < sy * sz
        calc y + z * sy < sy + z * sy := by omega
          _ = (z + 1) * sy := by ring
          _ ≤ sz * sy := Nat.mul_le_mul_right _ (by omega)
          _ = sy * sz := by ring
      · show x + y * sx + z * (sx * sy) = x + (y + z * sy) * sx
        ring
    rw [if_pos hcond, if_pos (by omega : x + y * sx + z * (sx * sy) < data.length),
      if_pos rfl]
    rfl
  · have hcond : ¬∃ k, k < (CartesianGrid.new sx sy sz lx ly lz cs).size_y *
        (CartesianGrid.new sx sy sz lx ly lz cs).size_z ∧
        x + y * sx + z * (sx * sy) =
          x0 + k * (CartesianGrid.new sx sy sz lx ly lz cs).size_x := by
      rintro ⟨k, _hk, heq⟩
      have heq' : x + sx * (y + sy * z) = x0 + sx * k := by
        have h0 : x + y * sx + z * (sx * sy) = x0 + k * sx := heq
        calc x + sx * (y + sy * z) = x + y * sx + z * (sx * sy) := by ring
          _ = x0 + k * sx := h0
          _ = x0 + sx * k := by ring
      have h1 : (x + sx * (y + sy * z)) % sx = (x0 + sx * k) % sx := by rw [heq']
      rw [Nat.add_mul_mod_self_left, Nat.add_mul_mod_self_left,
        Nat.mod_eq_of_lt hx, Nat.mod_eq_of_lt hx0] at h1
      exact hxx h1
    rw [if_neg hcond, if_neg hxx]

/-- C6 witness: on a 3×2×2 grid with an 12-element buffer of zeros, `set_all_x 1 7`
makes `(1,1,1)` hold 7 and leaves `(2,1,1)` at its previous value 0. -/
theorem set_all_x_frame_witness :
    ((set_all_x (CartesianGrid.new 3 2 2 false false false .cartesian3d) 1 7
        (List.replicate 12 0)).getD
      ((CartesianGrid.new 3 2 2 false false false .cartesian3d).index_from_coords 1 1 1) 99 =
      if 1 = 1 then 7
      else (List.replicate 12 0).getD
        ((CartesianGrid.new 3 2 2 false false false .cartesian3d).index_from_coords 1 1 1) 99)
    ∧ ((set_all_x (CartesianGrid.new 3 2 2 false false false .cartesian3d) 1 7
        (List.replicate 12 0)).getD
      ((CartesianGrid.new 3 2 2 false false false .cartesian3d).index_from_coords 2 1 1) 99 =
      if 2 = 1 then 7
      else (List.replicate 12 0).getD
        ((CartesianGrid.new 3 2 2 false false false .cartesian3d).index_from_coords 2 1 1) 99) :=
  ⟨set_all_x_frame Nat 3 2 2 false false false .cartesian3d (List.replicate 12 0) 1 7 99
      (by decide) (by decide) 1 1 1 (by decide) (by decide) (by decide),
   set_all_x_frame Nat 3 2 2 false false false .cartesian3d (List.replicate 12 0) 1 7 99
      (by decide) (by decide) 2 1 1 (by decide) (by decide) (by decide)⟩

/-- C7. Flood fill no-op: if `condition` fails at the starting cell, `flood_fill`
returns with the buffer unchanged (no `action` is ever applied) and an empty work
queue, whether a pre-allocated queue was supplied (it is cleared) or not — and
this needs no fuel at all. -/
theorem flood_fill_noop :
    ∀ (D : Type) (_inst : Inhabited D) (sx sy : Nat) (lx ly : Bool)
      (condition : D → Bool) (action : D → D) (data : List D) (p : CartesianPosition),
      p.x < sx → p.y < sy → p.z = 0 →
      data.length = (CartesianGrid.new_cartesian_2d sx sy lx ly).total_size →
      condition (get_from_pos (CartesianGrid.new_cartesian_2d sx sy lx ly) data p) = false →
      ∀ (q : List CartesianPosition) (fuel : Nat),
        flood_fill (CartesianGrid.new_cartesian_2d sx sy lx ly) condition action p
            (some q) data fuel = some (data, []) ∧
        flood_fill (CartesianGrid.new_cartesian_2d sx sy lx ly) condition action p
            none data fuel = some (data, []) := by
  intro D _inst sx sy lx ly condition action data p _hx _hy _hz _hlen hc q fuel
  constructor <;> simp [flood_fill, hc]

/-- C7 witness: a 2×2 grid of booleans, all `false`, with `condition = is true`:
flood fill from `(0,0)` returns the buffer unchanged and an empty queue. -/
theorem flood_fill_noop_witness :
    flood_fill (CartesianGrid.new_cartesian_2d 2 2 false false) (fun b => b)
        (fun _ => true) ⟨0, 0, 0⟩ (some [⟨1, 1, 0⟩]) (List.replicate 4 false) 5
      = some (List.replicate 4 false, []) ∧
    flood_fill (CartesianGrid.new_cartesian_2d 2 2 false false) (fun b => b)
        (fun _ => true) ⟨0, 0, 0⟩ none (List.replicate 4 false) 5
      = some (List.replicate 4 false, []) :=
  flood_fill_noop Bool ⟨false⟩ 2 2 false false (fun b => b) (fun _ => true)
    (List.replicate 4 false) ⟨0, 0, 0⟩ (by decide) (by decide) rfl (by decide) (by decide)
    [⟨1, 1, 0⟩] 5

/-- C8. Opposite involution and delta negation: `opposite` is an involution on all
six directions, and in both delta tables the entry at `opposite(d)`'s index is the
component-wise negation of the entry at `d`'s index, for every direction of the
respective coordinate system. -/
theorem opposite_involution_delta_negation :
    (∀ d : Direction, d.opposite.opposite = d)
    ∧ (∀ d ∈ CARTESIAN_2D_DIRECTIONS,
        CARTESIAN_2D_DELTAS.getD d.opposite.toIndex dfltDelta =
          (CARTESIAN_2D_DELTAS.getD d.toIndex dfltDelta).negate)
    ∧ (∀ d ∈ CARTESIAN_3D_DIRECTIONS,
        CARTESIAN_3D_DELTAS.getD d.opposite.toIndex dfltDelta =
          (CARTESIAN_3D_DELTAS.getD d.toIndex dfltDelta).negate) := by
  decide

/-- C8 witness: involution at `XForward`, and both table negations at `YForward`. -/
theorem opposite_involution_delta_negation_witness :
    Direction.XForward.opposite.opposite = Direction.XForward ∧
    CARTESIAN_2D_DELTAS.getD Direction.YForward.opposite.toIndex dfltDelta =
      (CARTESIAN_2D_DELTAS.getD Direction.YForward.toIndex dfltDelta).negate ∧
    CARTESIAN_3D_DELTAS.getD Direction.ZForward.opposite.toIndex dfltDelta =
      (CARTESIAN_3D_DELTAS.getD Direction.ZForward.toIndex dfltDelta).negate :=
  ⟨opposite_involution_delta_negation.1 .XForward,
   opposite_involution_delta_negation.2.1 .YForward (by decide),
   opposite_involution_delta_negation.2.2 .ZForward (by decide)⟩

/-- C10. Rotation-basis structure: for every direction `d`, `rotation_basis d` has
exactly 4 entries, contains neither `d` nor `opposite d`, and entries two apart in
the cyclic order are opposites: `basis[(i+2) % 4] = opposite (basis[i])`. -/
theorem rotation_basis_structure :
    ∀ d : Direction,
      d.rotation_basis.length = 4 ∧
      d ∉ d.rotation_basis ∧
      d.opposite ∉ d.rotation_basis ∧
      ∀ i : Nat, i < 4 →
        d.rotation_basis.getD ((i + 2) % 4) d = (d.rotation_basis.getD i d).opposite := by
  decide

/-- C10 witness: for `YBackward`, the entry two after index 1 is the opposite of
the entry at index 1. -/
theorem rotation_basis_structure_witness :
    Direction.YBackward.rotation_basis.getD ((1 + 2) % 4) .YBackward =
      (Direction.YBackward.rotation_basis.getD 1 .YBackward).opposite :=
  (rotation_basis_structure .YBackward).2.2.2 1 (by decide)

/-- C1. Flood fill scenario correctness.
(1) On the 5×5 non-looping 2D grid over booleans, all `true` except `false` on the
wall `x = 2`, `flood_fill` from `(0,0)` with `condition = (cell == true)` and
`action = (set cell to false)` terminates (returns `some`, for every fuel ≥ 100)
with an empty queue, every cell at `x < 2` flooded to `false`, the wall at `x = 2`
still `false`, and every cell at `x > 2` still `true`.
(2) On the 5×5 both-axes-looping 2D grid, starting from any valid position over an
all-`true` buffer instrumented with a per-cell application counter
(`action` sets the cell `false` and increments its counter), the fill terminates
with every one of the 25 cells `false` and its counter exactly 1: `action` was
applied exactly once per cell. -/
theorem flood_fill_scenarios_correct :
    (∀ fuel : Nat, 100 ≤ fuel →
      ∃ res : List Bool,
        flood_fill (CartesianGrid.new_cartesian_2d 5 5 false false)
            (fun b => b) (fun _ => false) ⟨0, 0, 0⟩ none
            ((List.range 25).map (fun i => decide (i % 5 ≠ 2))) fuel
          = some (res, []) ∧
        ∀ x : Nat, x < 5 → ∀ y : Nat, y < 5 → res.getD (x + 5 * y) false = decide (2 < x))
    ∧ (∀ sx sy : Nat, sx < 5 → sy < 5 → ∀ fuel : Nat, 100 ≤ fuel →
      ∃ res : List (Bool × Nat),
        flood_fill (CartesianGrid.new_cartesian_2d 5 5 true true)
            (fun d => d.1) (fun d => (false, d.2 + 1)) ⟨sx, sy, 0⟩ none
            (List.replicate 25 (true, 0)) fuel
          = some (res, []) ∧
        ∀ i : Nat, i < 25 → res.getD i (true, 0) = (false, 1)) := by
  constructor
  · intro fuel hfuel
    refine ⟨(List.range 25).map (fun i => decide (2 < i % 5)), ?_, by decide⟩
    refine flood_fill_mono _ _ _ _ _ _ 100 fuel _ hfuel ?_
    decide
  · intro sx sy hsx hsy fuel hfuel
    refine ⟨List.replicate 25 (false, 1), ?_, by decide⟩
    refine flood_fill_mono _ _ _ _ _ _ 100 fuel _ hfuel ?_
    have h : ∀ a : Fin 5, ∀ b : Fin 5,
        flood_fill (CartesianGrid.new_cartesian_2d 5 5 true true)
            (fun d : Bool × Nat => d.1) (fun d => (false, d.2 + 1)) ⟨a.val, b.val, 0⟩ none
            (List.replicate 25 (true, 0)) 100
          = some (List.replicate 25 (false, 1), []) := by decide
    exact h ⟨sx, hsx⟩ ⟨sy, hsy⟩

/-- C1 witness: both scenarios instantiated at concrete inputs (fuel 100; start
`(2,3)` for the looping scenario). -/
theorem flood_fill_scenarios_witness :
    (∃ res : List Bool,
      flood_fill (CartesianGrid.new_cartesian_2d 5 5 false false)
          (fun b => b) (fun _ => false) ⟨0, 0, 0⟩ none
          ((List.range 25).map (fun i => decide (i % 5 ≠ 2))) 100
        = some (res, []) ∧
      ∀ x : Nat, x < 5 → ∀ y : Nat, y < 5 → res.getD (x + 5 * y) false = decide (2 < x))
    ∧ (∃ res : List (Bool × Nat),
      flood_fill (CartesianGrid.new_cartesian_2d 5 5 true true)
          (fun d => d.1) (fun d => (false, d.2 + 1)) ⟨2, 3, 0⟩ none
          (List.replicate 25 (true, 0)) 100
        = some (res, []) ∧
      ∀ i : Nat, i < 25 → res.getD i (true, 0) = (false, 1)) :=
  ⟨flood_fill_scenarios_correct.1 100 (by decide),
   flood_fill_scenarios_correct.2 2 3 (by decide) (by decide) 100 (by decide)⟩

end GhxGrid
